import Mathlib

/-
Verification of the context-extraction and annotation-enrichment engine of the
kalmyk-image-dh-analysis repository.

The Python sources are shallowly embedded as Lean definitions:
  - dataframe cells become the inductive type CellValue (a cell is either
    missing, that is None or a float NaN, or a string);
  - the on-disk JSONL response cache becomes a list of key/response pairs,
    threaded explicitly through the functions that read or append to it;
  - the network (requests.post in _call_deepseek) becomes an oracle
    assigning to each prompt and attempt number an ApiResponse;
  - the MD5 digest used for cache keys (hashlib.md5 in _hash_key) and the
    SHA-256 digest used for context ids (hashlib.sha256 in hash_text) are
    external library primitives, embedded as an abstract string-to-string
    function parameter applied to exactly the payload the source hashes;
  - the NLTK sentence tokenizer and the compiled ethnonym regular expression
    are external capabilities, embedded as the sentence list they produce and
    as an oracle giving the match list for each sentence.
-/

namespace KalmykDH

/-- Model of a pandas dataframe cell as read by rerun_deepseek.py: either a
missing value (Python None, or a float NaN, both of which _needs_update treats
identically) or a string. -/
inductive CellValue where
  | na
  | str (s : String)
deriving DecidableEq

/-- Drop leading whitespace characters, auxiliary to the embedding of
Python str.strip(). -/
def strip_left : List Char → List Char
  | [] => []
  | c :: cs => if c.isWhitespace then strip_left cs else c :: cs

/-- Embedding of Python str.strip() with no argument: remove whitespace from
both ends of the string. -/
def py_strip (s : String) : String :=
  String.mk (strip_left (strip_left s.data).reverse).reverse

/-- Embedding of Python str.lower(): lowercase every character. -/
def py_lower (s : String) : String :=
  String.mk (s.data.map Char.toLower)

/-- Single pass splitting a character list on whitespace runs, accumulating
the current token in reverse; auxiliary to the embedding of str.split(). -/
def split_ws_go : List Char → List Char → List String
  | [], cur => if cur.isEmpty then [] else [String.mk cur.reverse]
  | c :: cs, cur =>
    if c.isWhitespace then
      if cur.isEmpty then split_ws_go cs []
      else String.mk cur.reverse :: split_ws_go cs []
    else split_ws_go cs (c :: cur)

/-- Embedding of Python str.split() with no argument: split on whitespace
runs, producing no empty fragments. -/
def py_split_ws (s : String) : List String :=
  split_ws_go s.data []

/-- Embedding of _needs_update (rerun_deepseek.py lines 25-32): force wins,
missing values need update, and otherwise the trimmed lowercased string must be
empty or the sentinel "unavailable". -/
def needs_update (value : CellValue) (force : Bool) : Bool :=
  if force then
    true
  else
    match value with
    | CellValue.na => true
    | CellValue.str s => py_lower (py_strip s) = "" || py_lower (py_strip s) = "unavailable"

/-- Embedding of _ensure_column (rerun_deepseek.py lines 44-48).  A column of
the contexts table is either present (some list of cells, one per row) or
absent.  The function returns the per-row needs-update mask together with the
column contents after the call (the source default-initializes an absent
column in place); nrows is the number of rows of the table. -/
def ensure_column (col : Option (List CellValue)) (force : Bool)
    (default : String) (nrows : Nat) : List Bool × List CellValue :=
  match col with
  | some vs => (vs.map (fun v => needs_update v force), vs)
  | none => (List.replicate nrows true, List.replicate nrows (CellValue.str default))

/-- One line of the JSONL response cache output/deepseek_responses.jsonl as
written by _cached_set: a key/response pair. -/
structure CacheEntry where
  key : String
  response : String
deriving DecidableEq

/-- Embedding of _cached_get (deepseek_module.py lines 38-56): linear scan
over the cache lines returning the response of the first record whose key
matches, and none when no record matches. -/
def cached_get : List CacheEntry → String → Option String
  | [], _ => none
  | e :: rest, key => if e.key = key then some e.response else cached_get rest key

/-- Embedding of _hash_key (deepseek_module.py lines 34-35): the MD5 digest of
the plain concatenation of task and text, with the digest function passed in
as the abstract parameter md5. -/
def hash_key (md5 : String → String) (task text : String) : String :=
  md5 (task ++ text)

/-- Outcome of one requests.post attempt inside _call_deepseek: an HTTP 200
response carrying the (possibly empty) message content, a non-200 status, or a
raised exception. -/
inductive ApiResponse where
  | ok (content : String)
  | httpError (code : Nat)
  | exn
deriving DecidableEq

/-- Result extracted from one attempt by _call_deepseek (lines 101-118): an
HTTP 200 response with nonempty stripped content yields that stripped content;
a 200 with blank content, a non-200 status, and an exception all yield nothing
and lead to the delay-then-retry path. -/
def attempt_result : ApiResponse → Option String
  | ApiResponse.ok content => if py_strip content = "" then none else some (py_strip content)
  | ApiResponse.httpError _ => none
  | ApiResponse.exn => none

/-- The retry loop of _call_deepseek, with the network embedded as the oracle
responses (response of attempt number i to the given prompt).  Returns the
result string together with the total number of network attempts performed;
the second argument of the recursion counts the attempts already made. -/
def call_loop (responses : String → Nat → ApiResponse) (prompt : String) :
    Nat → Nat → String × Nat
  | 0, attempt => ("unavailable", attempt)
  | n + 1, attempt =>
    match attempt_result (responses prompt attempt) with
    | some result => (result, attempt + 1)
    | none => call_loop responses prompt n (attempt + 1)

/-- Embedding of _call_deepseek (deepseek_module.py lines 82-119).  The
credential lookup _load_api_key is embedded as the apiKey parameter; a missing
credential short-circuits to the sentinel with zero network attempts,
otherwise the bounded retry loop runs (the source default is retries = 3). -/
def call_deepseek (apiKey : Option String) (responses : String → Nat → ApiResponse)
    (retries : Nat) (prompt : String) : String × Nat :=
  match apiKey with
  | none => ("unavailable", 0)
  | some _ => call_loop responses prompt retries 0

/-- Embedding of _cached_request (deepseek_module.py lines 122-129): compute
the key, return the first cached response if one exists, otherwise call the
API and append the result (success or sentinel alike) to the cache.  Returns
the result, the cache after the call, and the number of network attempts.
The source computes the key from (text or ""), which is the identity on
strings since ("" or "") is "". -/
def cached_request (md5 : String → String) (apiKey : Option String)
    (responses : String → Nat → ApiResponse) (retries : Nat)
    (cache : List CacheEntry) (task text prompt : String) :
    String × List CacheEntry × Nat :=
  let key := hash_key md5 task text
  match cached_get cache key with
  | some cached => (cached, cache, 0)
  | none =>
    let r := call_deepseek apiKey responses retries prompt
    (r.1, cache ++ [⟨key, r.1⟩], r.2)

/-- Embedding of translate_to_russian (deepseek_module.py lines 160-165): an
empty input, or one whose trimmed lowercase form is "unavailable" or "none",
returns the fixed Russian no-data marker without touching the cache or the
network; every other input goes through cached_request with task "translate". -/
def translate_to_russian (md5 : String → String) (apiKey : Option String)
    (responses : String → Nat → ApiResponse) (retries : Nat)
    (cache : List CacheEntry) (text : String) : String × List CacheEntry × Nat :=
  if text = "" ∨ py_lower (py_strip text) = "unavailable" ∨ py_lower (py_strip text) = "none" then
    ("нет данных", cache, 0)
  else
    cached_request md5 apiKey responses retries cache "translate" text
      ("Translate this text into Russian, preserving scientific tone:\n" ++ text)

/-- One row of the contexts table as manipulated by rerun_deepseek (lines
79-95): the context text cell plus the six annotation cells.  The remaining
columns of the file (metadata, extraction fields) are never read or written by
the rerun loop. -/
structure Row where
  context : CellValue
  semantic_label : CellValue
  attitude : CellValue
  summary_en : CellValue
  semantic_label_ru : CellValue
  attitude_ru : CellValue
  summary_ru : CellValue
deriving DecidableEq

/-- Names of the six annotation columns touched by the rerun loop. -/
inductive Col where
  | sem
  | att
  | sum
  | semru
  | attru
  | sumru
deriving DecidableEq, Fintype

/-- Read one annotation cell of a row. -/
def Row.get (r : Row) : Col → CellValue
  | Col.sem => r.semantic_label
  | Col.att => r.attitude
  | Col.sum => r.summary_en
  | Col.semru => r.semantic_label_ru
  | Col.attru => r.attitude_ru
  | Col.sumru => r.summary_ru

/-- Overwrite one annotation cell of a row. -/
def Row.set (r : Row) : Col → CellValue → Row
  | Col.sem, v => { r with semantic_label := v }
  | Col.att, v => { r with attitude := v }
  | Col.sum, v => { r with summary_en := v }
  | Col.semru, v => { r with semantic_label_ru := v }
  | Col.attru, v => { r with attitude_ru := v }
  | Col.sumru, v => { r with summary_ru := v }

/-- The one-level forward dependency of rerun_deepseek lines 88-95: each
primary column has a dependent Russian translation column, translation
columns have no dependent. -/
def dependent : Col → Option Col
  | Col.sem => some Col.semru
  | Col.att => some Col.attru
  | Col.sum => some Col.sumru
  | Col.semru => none
  | Col.attru => none
  | Col.sumru => none

/-- The four annotation calls made by the rerun loop (classify_context,
detect_sentiment, summarize_context, translate_to_russian), embedded as
stateful oracles over an abstract state σ (which in the running program holds
the response cache and the network).  Each call receives the raw cell value it
is given by the loop and returns the annotation string plus the new state. -/
structure Annotators (σ : Type) where
  classify : CellValue → σ → String × σ
  sentiment : CellValue → σ → String × σ
  summarize : CellValue → σ → String × σ
  translate : CellValue → σ → String × σ

/-- Embedding of one iteration of the rerun loop (rerun_deepseek.py lines
79-95) on one row.  The six needs-update masks are computed from the cells as
they stood before the loop (the source computes all mask series up front, and
a row's cells are unmodified until its own iteration); the three primary cells
are recomputed when their mask is set, and each translation cell is recomputed
when its own mask or its source mask is set, reading the possibly-updated
source cell, exactly as the source does with contexts.at. -/
def update_row {σ : Type} (A : Annotators σ) (force : Bool) (r : Row) (s : σ) :
    Row × σ :=
  let msem := needs_update r.semantic_label force
  let matt := needs_update r.attitude force
  let msum := needs_update r.summary_en force
  let msemru := needs_update r.semantic_label_ru force
  let mattru := needs_update r.attitude_ru force
  let msumru := needs_update r.summary_ru force
  let p1 : CellValue × σ :=
    if msem then
      let c := A.classify r.context s
      (CellValue.str c.1, c.2)
    else (r.semantic_label, s)
  let p2 : CellValue × σ :=
    if matt then
      let c := A.sentiment r.context p1.2
      (CellValue.str c.1, c.2)
    else (r.attitude, p1.2)
  let p3 : CellValue × σ :=
    if msum then
      let c := A.summarize r.context p2.2
      (CellValue.str c.1, c.2)
    else (r.summary_en, p2.2)
  let p4 : CellValue × σ :=
    if msemru || msem then
      let c := A.translate p1.1 p3.2
      (CellValue.str c.1, c.2)
    else (r.semantic_label_ru, p3.2)
  let p5 : CellValue × σ :=
    if mattru || matt then
      let c := A.translate p2.1 p4.2
      (CellValue.str c.1, c.2)
    else (r.attitude_ru, p4.2)
  let p6 : CellValue × σ :=
    if msumru || msum then
      let c := A.translate p3.1 p5.2
      (CellValue.str c.1, c.2)
    else (r.summary_ru, p5.2)
  ({ context := r.context, semantic_label := p1.1, attitude := p2.1,
     summary_en := p3.1, semantic_label_ru := p4.1, attitude_ru := p5.1,
     summary_ru := p6.1 }, p6.2)

/-- Embedding of the full rerun pass (rerun_deepseek.py lines 64-95) over the
rows of the contexts table in order, threading the annotator state.  The
source iterates only over rows whose mask disjunction is true; visiting every
row is extensionally identical because update_row leaves a row and the state
untouched when all six masks are false. -/
def rerun_rows {σ : Type} (A : Annotators σ) (force : Bool) :
    List Row → σ → List Row × σ
  | [], s => ([], s)
  | r :: rest, s =>
    let p := update_row A force r s
    let q := rerun_rows A force rest p.2
    (p.1 :: q.1, q.2)

/-- The annotation call the rerun loop makes to fill column c of row r in
state s: primary columns annotate the context cell, translation columns
translate their source cell. -/
def col_call {σ : Type} (A : Annotators σ) (r : Row) (s : σ) : Col → String × σ
  | Col.sem => A.classify r.context s
  | Col.att => A.sentiment r.context s
  | Col.sum => A.summarize r.context s
  | Col.semru => A.translate r.semantic_label s
  | Col.attru => A.translate r.attitude s
  | Col.sumru => A.translate r.summary_en s

/-- Expected effect of the rerun loop on a row whose only invalid cell is in
column c0: recompute that cell, then recompute its dependent translation cell
(if any) from the freshly updated source cell. -/
def expected_update {σ : Type} (A : Annotators σ) (r : Row) (s : σ) (c0 : Col) :
    Row × σ :=
  let p := col_call A r s c0
  let r1 := Row.set r c0 (CellValue.str p.1)
  match dependent c0 with
  | none => (r1, p.2)
  | some cru =>
    let q := col_call A r1 p.2 cru
    (Row.set r1 cru (CellValue.str q.1), q.2)

/-- Clamp an integer slice bound to a valid position of a list of length n,
following Python slice semantics: negative bounds count from the end of the
list (and clamp at 0), nonnegative bounds clamp at n. -/
def py_idx (n : Nat) (i : Int) : Nat :=
  if i < 0 then ((n : Int) + i).toNat else min i.toNat n

/-- Python list slicing l[a:b] for integer bounds. -/
def py_slice {α : Type} (l : List α) (a b : Int) : List α :=
  (l.drop (py_idx l.length a)).take (py_idx l.length b - py_idx l.length a)

/-- One regex match of the compiled ethnonym alternation inside a sentence
(re.Pattern.finditer in extract_contexts.py line 68).  The pattern is a single
word-bounded group, so group(0) and group(1) are the same substring; group0 is
that matched substring. -/
structure TermMatch where
  group0 : String
deriving DecidableEq

/-- Metadata of one document row passed to extract_ethnic_contexts, copied
verbatim onto every context record. -/
structure DocMeta where
  document_id : String
  filename : String
  author : String
  year : Option Int
  title : String
  source : String
deriving DecidableEq

/-- One record appended by extract_ethnic_contexts (lines 84-103). -/
structure Context where
  context_id : String
  document_id : String
  filename : String
  author : String
  year : Option Int
  title : String
  source : String
  ethnonym : String
  ethnonym_normalised : String
  sentence_index : Nat
  occurrence_index : Nat
  target_sentence : String
  context : String
  pre_context : String
  post_context : String
  context_sentence_count : Nat
deriving DecidableEq

/-- The window slice of extract_ethnic_contexts lines 73-75: sentences from
max(sentence_idx - window, 0) to min(sentence_idx + window + 1, number of
sentences), via Python slicing. -/
def window_slice (sentences : List String) (sIdx window : Nat) : List String :=
  py_slice sentences (max ((sIdx : Int) - (window : Int)) 0)
    (min ((sIdx : Int) + (window : Int) + 1) (sentences.length : Int))

/-- Embedding of the record built for one match (extract_contexts.py lines
71-103).  The hashText parameter embeds hash_text from utils.py, the SHA-256
hex digest, applied to exactly the payload string of line 81; occ is the
per-document occurrence counter value after its increment on line 72. -/
def mk_record (hashText : String → String) (meta : DocMeta)
    (sentences : List String) (window : Nat) (sIdx : Nat) (sentence : String)
    (occ : Nat) (m : TermMatch) : Context :=
  let start : Int := max ((sIdx : Int) - (window : Int)) 0
  let stop : Int := min ((sIdx : Int) + (window : Int) + 1) (sentences.length : Int)
  let contextSentences := py_slice sentences start stop
  let preContext := String.intercalate " " (py_slice sentences start (sIdx : Int))
  let postContext := String.intercalate " " (py_slice sentences ((sIdx : Int) + 1) stop)
  let contextText := String.intercalate " " contextSentences
  let contextHash := hashText
    (meta.document_id ++ "|" ++ toString sIdx ++ "|" ++ m.group0 ++ "|" ++ contextText)
  { context_id := contextHash
    document_id := meta.document_id
    filename := meta.filename
    author := meta.author
    year := meta.year
    title := meta.title
    source := meta.source
    ethnonym := m.group0
    ethnonym_normalised := py_lower m.group0
    sentence_index := sIdx
    occurrence_index := occ
    target_sentence := sentence
    context := contextText
    pre_context := preContext
    post_context := postContext
    context_sentence_count := contextSentences.length }

/-- Records produced for the matches of one sentence (the inner loop of
extract_contexts.py lines 71-103); counter is the per-document occurrence
counter before this sentence's matches, incremented before each record. -/
def sentence_records (hashText : String → String) (meta : DocMeta)
    (sentences : List String) (window : Nat) (sIdx : Nat) (sentence : String)
    (counter : Nat) : List TermMatch → List Context
  | [] => []
  | m :: rest =>
    mk_record hashText meta sentences window sIdx sentence (counter + 1) m
      :: sentence_records hashText meta sentences window sIdx sentence (counter + 1) rest

/-- The per-document loop of extract_ethnic_contexts (lines 64-103): walk the
sentences with their indices, threading the occurrence counter; matcher is the
compiled ethnonym pattern as an oracle from a sentence to its match list. -/
def extract_loop (hashText : String → String) (matcher : String → List TermMatch)
    (meta : DocMeta) (all : List String) (window : Nat) :
    List String → Nat → Nat → List Context
  | [], _, _ => []
  | sentence :: rest, sIdx, counter =>
    sentence_records hashText meta all window sIdx sentence counter (matcher sentence)
      ++ extract_loop hashText matcher meta all window rest (sIdx + 1)
        (counter + (matcher sentence).length)

/-- Embedding of extract_ethnic_contexts for one document, whose text the
external sentence tokenizer split into the given sentence list. -/
def extract_ethnic_contexts (hashText : String → String)
    (matcher : String → List TermMatch) (meta : DocMeta)
    (sentences : List String) (window : Nat) : List Context :=
  extract_loop hashText matcher meta sentences window sentences 0 0

/-- The fixed category list of normalize_label (main.py line 47), in source
order. -/
def CATEGORIES : List String :=
  ["ethnographic", "functional", "evaluative", "religious", "imperial"]

/-- Character-list prefix test, auxiliary to the substring test below. -/
def prefix_chars : List Char → List Char → Bool
  | [], _ => true
  | _ :: _, [] => false
  | c :: cs, d :: ds => c = d && prefix_chars cs ds

/-- Substring containment on character lists: Python's "needle in hay". -/
def contains_sub (needle : List Char) : List Char → Bool
  | [] => needle.isEmpty
  | c :: t => prefix_chars needle (c :: t) || contains_sub needle t

/-- Embedding of normalize_label (main.py lines 43-50) on string input: the
first fixed category contained in the lowercased text, else "other".  The
non-string branch returning "unknown" is outside the string embedding. -/
def normalize_label (text : String) : String :=
  match CATEGORIES.find? (fun cat => contains_sub cat.data (py_lower text).data) with
  | some cat => cat
  | none => "other"

/-- Embedding of normalize_attitude (main.py lines 53-57) on string input:
the first whitespace token of the stripped text, lowercased.  On input with no
token the source raises IndexError on [0], embedded as none. -/
def normalize_attitude (text : String) : Option String :=
  match py_split_ws (py_strip text) with
  | [] => none
  | t :: _ => some (py_lower t)

/-- Concrete annotator oracles used for fully evaluated examples: the state
counts the annotation calls made, and each task returns a fixed label. -/
def demo_annotators : Annotators Nat :=
  ⟨fun _ n => ("CLS", n + 1), fun _ n => ("SNT", n + 1),
   fun _ n => ("SUM", n + 1), fun _ n => ("TRN", n + 1)⟩

/-- An example contexts-table row all of whose annotation cells are valid. -/
def demo_valid_row : Row :=
  ⟨CellValue.str "ctx", CellValue.str "ethnographic", CellValue.str "positive",
   CellValue.str "summary", CellValue.str "этно", CellValue.str "позитив",
   CellValue.str "сводка"⟩

/-- An example row whose only invalid cell is the classification label,
holding the "unavailable" sentinel. -/
def demo_sentinel_row : Row :=
  ⟨CellValue.str "ctx2", CellValue.str "unavailable", CellValue.str "neutral",
   CellValue.str "summary2", CellValue.str "этно2", CellValue.str "нейтр",
   CellValue.str "сводка2"⟩

/-- Concrete match oracle for fully evaluated examples: every sentence
matches the two distinct spellings "Kalmyk" and "Calmuck". -/
def demo_matcher : String → List TermMatch :=
  fun _ => [⟨"Kalmyk"⟩, ⟨"Calmuck"⟩]

/-- Concrete document metadata for fully evaluated examples. -/
def demo_meta : DocMeta :=
  ⟨"doc1", "doc1.txt", "author", none, "title", "src"⟩

/-! Helper lemmas about the cache model, shared by several claims. -/

lemma cached_get_append (cache : List CacheEntry) (e : CacheEntry) (key : String)
    (h : cached_get cache key = none) :
    cached_get (cache ++ [e]) key = if e.key = key then some e.response else none := by
  induction cache with
  | nil => simp [cached_get]
  | cons x xs ih =>
    by_cases hx : x.key = key
    · simp [cached_get, hx] at h
    · simp only [cached_get, hx, if_false, List.cons_append] at h ⊢
      exact ih h

lemma cached_request_after {md5 : String → String} (k1 k2 : Option String)
    (r1 r2 : String → Nat → ApiResponse) (n1 n2 : Nat) (cache : List CacheEntry)
    (task1 text1 p1 task2 text2 p2 : String)
    (hkey : hash_key md5 task2 text2 = hash_key md5 task1 text1) :
    cached_request md5 k2 r2 n2
      (cached_request md5 k1 r1 n1 cache task1 text1 p1).2.1 task2 text2 p2
      = ((cached_request md5 k1 r1 n1 cache task1 text1 p1).1,
         (cached_request md5 k1 r1 n1 cache task1 text1 p1).2.1, 0) := by
  cases h : cached_get cache (hash_key md5 task1 text1) with
  | some v => simp [cached_request, h, hkey]
  | none =>
    have h2 := cached_get_append cache
      ⟨hash_key md5 task1 text1, (call_deepseek k1 r1 n1 p1).1⟩
      (hash_key md5 task1 text1) h
    simp only [if_pos rfl] at h2
    simp [cached_request, h, hkey, h2]

/-- C1: a cache hit on the key hash(task ++ text) makes annotate return the
first cached response with zero network attempts, and a second call with the
same (task, text) after a completed first call returns the first call's
result, changes nothing, and performs no network attempt, whatever the
credential and network oracles of the second call would return. -/
theorem cache_hit_precedes_network {md5 : String → String}
    (k1 k2 : Option String) (r1 r2 : String → Nat → ApiResponse) (n1 n2 : Nat)
    (cache : List CacheEntry) (task text p1 p2 : String) :
    (∀ v, cached_get cache (hash_key md5 task text) = some v →
        cached_request md5 k1 r1 n1 cache task text p1 = (v, cache, 0))
    ∧ cached_request md5 k2 r2 n2
        (cached_request md5 k1 r1 n1 cache task text p1).2.1 task text p2
      = ((cached_request md5 k1 r1 n1 cache task text p1).1,
         (cached_request md5 k1 r1 n1 cache task text p1).2.1, 0) := by
  constructor
  · intro v hv
    simp [cached_request, hv]
  · exact cached_request_after k1 k2 r1 r2 n1 n2 cache task text p1 task text p2 rfl

/-- Witness for C1 at concrete input: cache holding key "classifyX" with
response "cat", md5 embedded as the identity digest, task "classify" and
text "X". -/
theorem cache_hit_precedes_network_witness :
    cached_get [⟨"classifyX", "cat"⟩] (hash_key id "classify" "X") = some "cat"
    ∧ cached_request id none (fun _ _ => ApiResponse.exn) 3
        [⟨"classifyX", "cat"⟩] "classify" "X" "p" = ("cat", [⟨"classifyX", "cat"⟩], 0) :=
  ⟨rfl,
    (cache_hit_precedes_network none none (fun _ _ => ApiResponse.exn)
      (fun _ _ => ApiResponse.exn) 3 3 [⟨"classifyX", "cat"⟩] "classify" "X" "p" "p").1
      "cat" rfl⟩

lemma call_loop_exhaust (responses : String → Nat → ApiResponse) (prompt : String) :
    ∀ (n a : Nat), (∀ i, a ≤ i → i < a + n → attempt_result (responses prompt i) = none) →
      call_loop responses prompt n a = ("unavailable", a + n) := by
  intro n
  induction n with
  | zero => intro a _; simp [call_loop]
  | succ n ih =>
    intro a h
    have h0 : attempt_result (responses prompt a) = none := h a (Nat.le_refl a) (by omega)
    simp only [call_loop, h0]
    rw [ih (a + 1) (fun i h1 h2 => h i (by omega) (by omega))]
    have harith : a + 1 + n = a + (n + 1) := by omega
    rw [harith]

/-- C2: without a credential, the external-call function returns the sentinel
with zero network attempts; with a credential, if all of the bounded number of
attempts fail (non-OK status, exception, or blank content), it returns the
sentinel after exactly that many attempts; and on a cache miss this sentinel
result is appended to the cache exactly like a successful result. -/
theorem retry_exhaustion_and_sentinel_caching {md5 : String → String} (k : String)
    (responses : String → Nat → ApiResponse) (retries : Nat)
    (cache : List CacheEntry) (task text prompt : String) :
    call_deepseek none responses retries prompt = ("unavailable", 0)
    ∧ ((∀ i, i < retries → attempt_result (responses prompt i) = none) →
        call_deepseek (some k) responses retries prompt = ("unavailable", retries))
    ∧ (cached_get cache (hash_key md5 task text) = none →
       (∀ i, i < retries → attempt_result (responses prompt i) = none) →
        cached_request md5 (some k) responses retries cache task text prompt
          = ("unavailable", cache ++ [⟨hash_key md5 task text, "unavailable"⟩], retries)) := by
  have hcall : (∀ i, i < retries → attempt_result (responses prompt i) = none) →
      call_deepseek (some k) responses retries prompt = ("unavailable", retries) := by
    intro h
    have := call_loop_exhaust responses prompt retries 0 (fun i _ h2 => h i (by omega))
    simpa [call_deepseek] using this
  refine ⟨rfl, hcall, ?_⟩
  intro hmiss hfail
  simp [cached_request, hmiss, hcall hfail]

/-- Witness for C2 at concrete input: a network oracle that always raises,
retries = 3, empty cache, task "sentiment". -/
theorem retry_exhaustion_and_sentinel_caching_witness :
    cached_get [] (hash_key id "sentiment" "any text") = none
    ∧ (∀ i, i < 3 → attempt_result ((fun _ _ => ApiResponse.exn) "p" i) = none)
    ∧ cached_request id (some "key") (fun _ _ => ApiResponse.exn) 3 [] "sentiment"
        "any text" "p"
      = ("unavailable", [⟨"sentimentany text", "unavailable"⟩], 3) :=
  ⟨rfl, fun _ _ => rfl,
    (retry_exhaustion_and_sentinel_caching "key" (fun _ _ => ApiResponse.exn) 3 []
      "sentiment" "any text" "p").2.2 rfl (fun _ _ => rfl)⟩

/-- C10: the cache key is a digest of the plain separator-free concatenation
of task and text, so two distinct (task, text) pairs with equal concatenations
get the same key, see the same cache entries, and a call with the second pair
right after a completed call with the first pair returns the first pair's
result from the cache with no network attempt. -/
theorem hash_key_concatenation_aliasing {md5 : String → String}
    (task1 text1 task2 text2 : String) (hcat : task1 ++ text1 = task2 ++ text2) :
    hash_key md5 task1 text1 = hash_key md5 task2 text2
    ∧ (∀ cache, cached_get cache (hash_key md5 task1 text1)
        = cached_get cache (hash_key md5 task2 text2))
    ∧ (∀ (k1 k2 : Option String) (r1 r2 : String → Nat → ApiResponse)
        (n1 n2 : Nat) (cache : List CacheEntry) (p1 p2 : String),
        cached_request md5 k2 r2 n2
          (cached_request md5 k1 r1 n1 cache task1 text1 p1).2.1 task2 text2 p2
        = ((cached_request md5 k1 r1 n1 cache task1 text1 p1).1,
           (cached_request md5 k1 r1 n1 cache task1 text1 p1).2.1, 0)) := by
  have hk : hash_key md5 task1 text1 = hash_key md5 task2 text2 := by
    unfold hash_key
    rw [hcat]
  refine ⟨hk, fun cache => by rw [hk], ?_⟩
  intro k1 k2 r1 r2 n1 n2 cache p1 p2
  exact cached_request_after k1 k2 r1 r2 n1 n2 cache task1 text1 p1 task2 text2 p2 hk.symm

/-- Witness for C10 at concrete input: the distinct pairs ("classify", "X")
and ("classifyX", "") alias; a call with the second pair after a first-pair
call that cached "unavailable" returns that cached value with no attempt. -/
theorem hash_key_concatenation_aliasing_witness :
    ("classify" ++ "X" = "classifyX" ++ "")
    ∧ hash_key id "classify" "X" = hash_key id "classifyX" ""
    ∧ cached_request id none (fun _ _ => ApiResponse.exn) 3
        (cached_request id none (fun _ _ => ApiResponse.exn) 3 [] "classify" "X" "p").2.1
        "classifyX" "" "q"
      = ((cached_request id none (fun _ _ => ApiResponse.exn) 3 [] "classify" "X" "p").1,
         (cached_request id none (fun _ _ => ApiResponse.exn) 3 [] "classify" "X" "p").2.1, 0) :=
  ⟨rfl,
    (hash_key_concatenation_aliasing "classify" "X" "classifyX" "" rfl).1,
    (hash_key_concatenation_aliasing "classify" "X" "classifyX" "" rfl).2.2 none none
      (fun _ _ => ApiResponse.exn) (fun _ _ => ApiResponse.exn) 3 3 [] "p" "q"⟩

/-- C8: a translate input that is empty or equal to a sentinel value returns
the fixed Russian no-data marker, leaves the cache unchanged, and performs no
network attempt, for every cache and every credential and network oracle. -/
theorem translate_sentinel_no_data {md5 : String → String} (apiKey : Option String)
    (responses : String → Nat → ApiResponse) (retries : Nat)
    (cache : List CacheEntry) (text : String)
    (h : text = "" ∨ text = "unavailable" ∨ text = "none") :
    translate_to_russian md5 apiKey responses retries cache text
      = ("нет данных", cache, 0) := by
  rcases h with h | h | h <;> subst h <;> rfl

/-- Witness for C8 at the concrete input "unavailable". -/
theorem translate_sentinel_no_data_witness :
    ("unavailable" = "" ∨ "unavailable" = "unavailable" ∨ "unavailable" = "none")
    ∧ translate_to_russian id (some "key") (fun _ _ => ApiResponse.exn) 3
        [⟨"a", "b"⟩] "unavailable" = ("нет данных", [⟨"a", "b"⟩], 0) :=
  ⟨Or.inr (Or.inl rfl),
    translate_sentinel_no_data (some "key") (fun _ _ => ApiResponse.exn) 3
      [⟨"a", "b"⟩] "unavailable" (Or.inr (Or.inl rfl))⟩

/-- C4: in incremental mode the needs-update predicate is true exactly when
the force flag is set, the value is missing (None or NaN), or the trimmed
lowercased string is empty or the "unavailable" sentinel; an absent column is
default-initialized with every row marked for computing, and a present column
is left as it is with the per-cell mask. -/
theorem needs_update_characterization :
    (∀ (v : CellValue) (f : Bool),
      needs_update v f = true ↔
        (f = true ∨ v = CellValue.na ∨
          ∃ s, v = CellValue.str s ∧
            (py_lower (py_strip s) = "" ∨ py_lower (py_strip s) = "unavailable")))
    ∧ (∀ (f : Bool) (d : String) (n : Nat),
        ensure_column none f d n
          = (List.replicate n true, List.replicate n (CellValue.str d)))
    ∧ (∀ (vs : List CellValue) (f : Bool) (d : String) (n : Nat),
        ensure_column (some vs) f d n
          = (vs.map (fun v => needs_update v f), vs)) := by
  refine ⟨?_, fun _ _ _ => rfl, fun _ _ _ _ => rfl⟩
  intro v f
  cases v with
  | na => cases f <;> simp [needs_update]
  | str s => cases f <;> simp [needs_update]

/-- C5 counterexample: the Russian no-data marker is not treated as absent by
the validity predicate of the incremental pass, contradicting the claim that
the "no data" marker counts as absent. -/
theorem no_data_marker_not_absent :
    needs_update (CellValue.str "нет данных") false = false := by rfl

/-- C5 (amended): the validity predicate counts a value as absent exactly when
it is missing or its trimmed lowercase form is empty or "unavailable"; the
Russian no-data marker does not count as absent, and is only used as the
default value when an entirely absent translation column is initialized, in
which case every row of that column is marked for computing anyway. -/
theorem validity_predicate_amended :
    (∀ (v : CellValue), needs_update v false = true ↔
      (v = CellValue.na ∨ ∃ s, v = CellValue.str s ∧
        (py_lower (py_strip s) = "" ∨ py_lower (py_strip s) = "unavailable")))
    ∧ needs_update (CellValue.str "нет данных") false = false
    ∧ (∀ n : Nat, ensure_column none false "нет данных" n
        = (List.replicate n true, List.replicate n (CellValue.str "нет данных"))) := by
  refine ⟨?_, by rfl, fun _ => rfl⟩
  intro v
  cases v with
  | na => simp [needs_update]
  | str s => simp [needs_update]

/-- C9: the classification normalizer returns a fixed category exactly when
the lowercased input contains some fixed category as a substring, returns only
categories the input contains, and returns "other" otherwise; the sentiment
normalizer returns the first whitespace-delimited token of the trimmed input,
lowercased, whenever such a token exists. -/
theorem normalize_label_attitude_correct (text : String) :
    (normalize_label text ∈ CATEGORIES ↔
      ∃ c ∈ CATEGORIES, contains_sub c.data (py_lower text).data = true)
    ∧ (∀ c ∈ CATEGORIES, normalize_label text = c →
        contains_sub c.data (py_lower text).data = true)
    ∧ ((¬ ∃ c ∈ CATEGORIES, contains_sub c.data (py_lower text).data = true) →
        normalize_label text = "other")
    ∧ (∀ t rest, py_split_ws (py_strip text) = t :: rest →
        normalize_attitude text = some (py_lower t)) := by
  have hother : "other" ∉ CATEGORIES := by decide
  cases hf : CATEGORIES.find? (fun cat => contains_sub cat.data (py_lower text).data) with
  | none =>
    have hnone := List.find?_eq_none.mp hf
    have hlab : normalize_label text = "other" := by
      simp [normalize_label, hf]
    refine ⟨?_, ?_, fun _ => hlab, ?_⟩
    · rw [hlab]
      simp only [hother, false_iff]
      rintro ⟨c, hc, hsub⟩
      exact absurd hsub (by simpa using hnone c hc)
    · intro c hc heq
      rw [hlab] at heq
      exact absurd (heq ▸ hc) hother
    · intro t rest hsplit
      simp [normalize_attitude, hsplit]
  | some cat =>
    have hmem : cat ∈ CATEGORIES := List.mem_of_find?_eq_some hf
    have hsub : contains_sub cat.data (py_lower text).data = true := by
      simpa using List.find?_some hf
    have hlab : normalize_label text = cat := by
      simp [normalize_label, hf]
    refine ⟨?_, ?_, ?_, ?_⟩
    · rw [hlab]
      exact ⟨fun _ => ⟨cat, hmem, hsub⟩, fun _ => hmem⟩
    · intro c _ heq
      rw [hlab] at heq
      exact heq ▸ hsub
    · intro hno
      exact absurd ⟨cat, hmem, hsub⟩ hno
    · intro t rest hsplit
      simp [normalize_attitude, hsplit]

/-- Witness for C9 at the concrete input " Mostly Ethnographic  notes ". -/
theorem normalize_label_attitude_correct_witness :
    ("ethnographic" ∈ CATEGORIES)
    ∧ normalize_label " Mostly Ethnographic  notes " = "ethnographic"
    ∧ py_split_ws (py_strip " Mostly Ethnographic  notes ")
        = ["Mostly", "Ethnographic", "notes"]
    ∧ normalize_attitude " Mostly Ethnographic  notes " = some "mostly" :=
  ⟨by decide, by rfl, by rfl,
    (normalize_label_attitude_correct " Mostly Ethnographic  notes ").2.2.2
      "Mostly" ["Ethnographic", "notes"] (by rfl)⟩

/-! Helper lemmas about Python slicing, shared by the extractor claims. -/

lemma py_idx_of_nonneg (n : Nat) (i : Int) (h : 0 ≤ i) : py_idx n i = min i.toNat n := by
  simp [py_idx, not_lt.mpr h]

lemma py_slice_to_zero {α : Type} (l : List α) (a : Int) : py_slice l a 0 = [] := by
  unfold py_slice
  have h0 : py_idx l.length 0 = 0 := by simp [py_idx]
  rw [h0]
  simp [Nat.zero_sub]

lemma window_slice_eq (sentences : List String) (sIdx window : Nat) :
    window_slice sentences sIdx window
      = (sentences.drop (sIdx - window)).take
          (min (sIdx + window + 1) sentences.length - (sIdx - window)) := by
  unfold window_slice py_slice
  rw [py_idx_of_nonneg _ _ (le_max_right _ _),
    py_idx_of_nonneg _ _ (by positivity)]
  have h1 : (max ((sIdx : Int) - (window : Int)) 0).toNat = sIdx - window := by omega
  have h2 : (min ((sIdx : Int) + (window : Int) + 1) (sentences.length : Int)).toNat
      = min (sIdx + window + 1) sentences.length := by omega
  rw [h1, h2]
  have h3 : min (min (sIdx + window + 1) sentences.length) sentences.length
      = min (sIdx + window + 1) sentences.length := by omega
  rw [h3]
  rcases le_or_lt (sIdx - window) sentences.length with hle | hlt
  · rw [min_eq_left hle]
  · rw [show min (sIdx - window) sentences.length = sentences.length by omega]
    rw [List.drop_length, List.drop_eq_nil_of_le (by omega)]
    simp

/-- C6: the extracted window is exactly the sentence slice from
max(sIdx - window, 0) to min(sIdx + window + 1, number of sentences) - a
sublist of the document's sentences of at most 2*window+1 elements, with no
wraparound and no padding - the record's window text and sentence count come
from that slice, and a match on the first sentence yields an empty
pre-context. -/
theorem window_clipping (hashText : String → String) (meta : DocMeta)
    (sentences : List String) (window sIdx occ : Nat) (sentence : String)
    (m : TermMatch) :
    window_slice sentences sIdx window
      = (sentences.drop (sIdx - window)).take
          (min (sIdx + window + 1) sentences.length - (sIdx - window))
    ∧ (window_slice sentences sIdx window).Sublist sentences
    ∧ (window_slice sentences sIdx window).length ≤ 2 * window + 1
    ∧ (mk_record hashText meta sentences window sIdx sentence occ m).context
        = String.intercalate " " (window_slice sentences sIdx window)
    ∧ (mk_record hashText meta sentences window sIdx sentence occ m).context_sentence_count
        = (window_slice sentences sIdx window).length
    ∧ (sIdx = 0 →
        (mk_record hashText meta sentences window sIdx sentence occ m).pre_context = "") := by
  refine ⟨window_slice_eq sentences sIdx window, ?_, ?_, rfl, rfl, ?_⟩
  · rw [window_slice_eq]
    exact ((List.take_sublist _ _).trans (List.drop_sublist _ _))
  · rw [window_slice_eq, List.length_take, List.length_drop]
    omega
  · intro h0
    subst h0
    simp [mk_record, py_slice_to_zero]
    decide

/-- Witness for C6 at concrete input: a five-sentence document, a match on
the first sentence with the default window 3. -/
theorem window_clipping_witness :
    (0 : Nat) = 0
    ∧ (mk_record id ⟨"doc", "f.txt", "a", none, "t", "s"⟩
        ["s0.", "s1.", "s2.", "s3.", "s4."] 3 0 "s0." 1 ⟨"Kalmyk"⟩).pre_context = "" :=
  ⟨rfl,
    (window_clipping id ⟨"doc", "f.txt", "a", none, "t", "s"⟩
      ["s0.", "s1.", "s2.", "s3.", "s4."] 3 0 1 "s0." ⟨"Kalmyk"⟩).2.2.2.2.2 rfl⟩

/-! Helper lemmas about the incremental rerun pass. -/

lemma update_row_valid {σ : Type} (A : Annotators σ) (r : Row) (s : σ)
    (h : ∀ c, needs_update (Row.get r c) false = false) :
    update_row A false r s = (r, s) := by
  have hsem := h Col.sem
  have hatt := h Col.att
  have hsum := h Col.sum
  have hsemru := h Col.semru
  have hattru := h Col.attru
  have hsumru := h Col.sumru
  simp only [Row.get] at hsem hatt hsum hsemru hattru hsumru
  simp [update_row, hsem, hatt, hsum, hsemru, hattru, hsumru]

lemma rerun_rows_all_valid {σ : Type} (A : Annotators σ) (rows : List Row)
    (h : ∀ r ∈ rows, ∀ c, needs_update (Row.get r c) false = false) :
    ∀ s : σ, rerun_rows A false rows s = (rows, s) := by
  induction rows with
  | nil => intro s; rfl
  | cons r rest ih =>
    intro s
    simp only [rerun_rows]
    rw [update_row_valid A r s (h r (by simp))]
    rw [ih (fun x hx c => h x (by simp [hx]) c) s]

lemma update_row_single {σ : Type} (A : Annotators σ) (r : Row) (s : σ) (c0 : Col)
    (hrow : ∀ c, c ≠ c0 → needs_update (Row.get r c) false = false)
    (hsent : Row.get r c0 = CellValue.str "unavailable") :
    update_row A false r s = expected_update A r s c0 := by
  have hu : needs_update (CellValue.str "unavailable") false = true := by decide
  cases c0 with
  | sem =>
    have h2 := hrow Col.att (by decide)
    have h3 := hrow Col.sum (by decide)
    have h4 := hrow Col.semru (by decide)
    have h5 := hrow Col.attru (by decide)
    have h6 := hrow Col.sumru (by decide)
    simp only [Row.get] at hsent h2 h3 h4 h5 h6
    simp [update_row, expected_update, col_call, Row.set, dependent,
      hsent, hu, h2, h3, h4, h5, h6]
  | att =>
    have h1 := hrow Col.sem (by decide)
    have h3 := hrow Col.sum (by decide)
    have h4 := hrow Col.semru (by decide)
    have h5 := hrow Col.attru (by decide)
    have h6 := hrow Col.sumru (by decide)
    simp only [Row.get] at hsent h1 h3 h4 h5 h6
    simp [update_row, expected_update, col_call, Row.set, dependent,
      hsent, hu, h1, h3, h4, h5, h6]
  | sum =>
    have h1 := hrow Col.sem (by decide)
    have h2 := hrow Col.att (by decide)
    have h4 := hrow Col.semru (by decide)
    have h5 := hrow Col.attru (by decide)
    have h6 := hrow Col.sumru (by decide)
    simp only [Row.get] at hsent h1 h2 h4 h5 h6
    simp [update_row, expected_update, col_call, Row.set, dependent,
      hsent, hu, h1, h2, h4, h5, h6]
  | semru =>
    have h1 := hrow Col.sem (by decide)
    have h2 := hrow Col.att (by decide)
    have h3 := hrow Col.sum (by decide)
    have h5 := hrow Col.attru (by decide)
    have h6 := hrow Col.sumru (by decide)
    simp only [Row.get] at hsent h1 h2 h3 h5 h6
    simp [update_row, expected_update, col_call, Row.set, dependent,
      hsent, hu, h1, h2, h3, h5, h6]
  | attru =>
    have h1 := hrow Col.sem (by decide)
    have h2 := hrow Col.att (by decide)
    have h3 := hrow Col.sum (by decide)
    have h4 := hrow Col.semru (by decide)
    have h6 := hrow Col.sumru (by decide)
    simp only [Row.get] at hsent h1 h2 h3 h4 h6
    simp [update_row, expected_update, col_call, Row.set, dependent,
      hsent, hu, h1, h2, h3, h4, h6]
  | sumru =>
    have h1 := hrow Col.sem (by decide)
    have h2 := hrow Col.att (by decide)
    have h3 := hrow Col.sum (by decide)
    have h4 := hrow Col.semru (by decide)
    have h5 := hrow Col.attru (by decide)
    simp only [Row.get] at hsent h1 h2 h3 h4 h5
    simp [update_row, expected_update, col_call, Row.set, dependent,
      hsent, hu, h1, h2, h3, h4, h5]

/-- C3: when the contexts table has exactly one invalid cell - the
"unavailable" sentinel in column c0 of one row - a non-forced rerun pass
returns the same rows in the same order with only that row replaced; in the
replaced row every cell other than c0 and its dependent translation column is
unchanged (the context cell included), cell c0 is overwritten with the fresh
annotation of that row, and the dependent translation cell, valid as it was,
is overwritten with the translation of the freshly recomputed source cell. -/
theorem rerun_single_sentinel_frame {σ : Type} (A : Annotators σ) (s : σ)
    (pre post : List Row) (ri : Row) (c0 : Col)
    (hpre : ∀ r ∈ pre, ∀ c, needs_update (Row.get r c) false = false)
    (hpost : ∀ r ∈ post, ∀ c, needs_update (Row.get r c) false = false)
    (hrow : ∀ c, c ≠ c0 → needs_update (Row.get ri c) false = false)
    (hsent : Row.get ri c0 = CellValue.str "unavailable") :
    rerun_rows A false (pre ++ ri :: post) s
      = (pre ++ (expected_update A ri s c0).1 :: post, (expected_update A ri s c0).2)
    ∧ (pre ++ (expected_update A ri s c0).1 :: post).length
        = (pre ++ ri :: post).length
    ∧ (∀ c, c ≠ c0 → dependent c0 ≠ some c →
        Row.get (expected_update A ri s c0).1 c = Row.get ri c)
    ∧ (expected_update A ri s c0).1.context = ri.context
    ∧ Row.get (expected_update A ri s c0).1 c0
        = CellValue.str (col_call A ri s c0).1
    ∧ (∀ cru, dependent c0 = some cru →
        Row.get (expected_update A ri s c0).1 cru
          = CellValue.str
              (col_call A (Row.set ri c0 (CellValue.str (col_call A ri s c0).1))
                (col_call A ri s c0).2 cru).1) := by
  refine ⟨?_, by simp, ?_, ?_, ?_, ?_⟩
  · induction pre generalizing s with
    | nil =>
      simp only [List.nil_append, rerun_rows]
      rw [update_row_single A ri s c0 hrow hsent]
      rw [rerun_rows_all_valid A post hpost]
    | cons r rest ih =>
      simp only [List.cons_append, rerun_rows, List.append_eq,
        update_row_valid A r s (hpre r (by simp)),
        ih s (fun x hx c => hpre x (List.mem_cons_of_mem r hx) c)]
  · intro c hc hdep
    cases c0 <;> cases c <;>
      simp_all [expected_update, Row.set, Row.get, col_call, dependent]
  · cases c0 <;> simp [expected_update, Row.set, dependent]
  · cases c0 <;> simp [expected_update, Row.set, Row.get, dependent]
  · intro cru hcru
    cases c0 with
    | sem =>
      simp only [dependent, Option.some.injEq] at hcru
      subst hcru
      simp [expected_update, Row.set, Row.get, dependent, col_call]
    | att =>
      simp only [dependent, Option.some.injEq] at hcru
      subst hcru
      simp [expected_update, Row.set, Row.get, dependent, col_call]
    | sum =>
      simp only [dependent, Option.some.injEq] at hcru
      subst hcru
      simp [expected_update, Row.set, Row.get, dependent, col_call]
    | semru => simp [dependent] at hcru
    | attru => simp [dependent] at hcru
    | sumru => simp [dependent] at hcru

/-- Witness for C3 at concrete input: a two-row table whose second row has
the sentinel in the classification column, with the demo annotators and call
counter state 0. -/
theorem rerun_single_sentinel_frame_witness :
    rerun_rows demo_annotators false ([demo_valid_row] ++ demo_sentinel_row :: []) 0
      = ([demo_valid_row]
          ++ (expected_update demo_annotators demo_sentinel_row 0 Col.sem).1 :: [],
         (expected_update demo_annotators demo_sentinel_row 0 Col.sem).2)
    ∧ ([demo_valid_row]
        ++ (expected_update demo_annotators demo_sentinel_row 0 Col.sem).1 :: []).length
        = ([demo_valid_row] ++ demo_sentinel_row :: []).length
    ∧ (∀ c, c ≠ Col.sem → dependent Col.sem ≠ some c →
        Row.get (expected_update demo_annotators demo_sentinel_row 0 Col.sem).1 c
          = Row.get demo_sentinel_row c)
    ∧ (expected_update demo_annotators demo_sentinel_row 0 Col.sem).1.context
        = demo_sentinel_row.context
    ∧ Row.get (expected_update demo_annotators demo_sentinel_row 0 Col.sem).1 Col.sem
        = CellValue.str (col_call demo_annotators demo_sentinel_row 0 Col.sem).1
    ∧ (∀ cru, dependent Col.sem = some cru →
        Row.get (expected_update demo_annotators demo_sentinel_row 0 Col.sem).1 cru
          = CellValue.str
              (col_call demo_annotators
                (Row.set demo_sentinel_row Col.sem
                  (CellValue.str (col_call demo_annotators demo_sentinel_row 0 Col.sem).1))
                (col_call demo_annotators demo_sentinel_row 0 Col.sem).2 cru).1) :=
  rerun_single_sentinel_frame demo_annotators 0 [demo_valid_row] [] demo_sentinel_row
    Col.sem (by decide) (by decide) (by decide) rfl

/-! Helper lemmas for the multi-match extraction claim. -/

lemma extract_loop_skip (hashText : String → String)
    (matcher : String → List TermMatch) (meta : DocMeta) (all : List String)
    (window : Nat) :
    ∀ (pre2 rest : List String) (sIdx counter : Nat),
      (∀ s ∈ pre2, matcher s = []) →
      extract_loop hashText matcher meta all window (pre2 ++ rest) sIdx counter
        = extract_loop hashText matcher meta all window rest (sIdx + pre2.length) counter := by
  intro pre2
  induction pre2 with
  | nil => intro rest sIdx counter _; simp
  | cons s2 t ih =>
    intro rest sIdx counter h
    have hs : matcher s2 = [] := h s2 (by simp)
    simp only [List.cons_append, extract_loop, hs, List.length_nil, Nat.add_zero,
      sentence_records, List.nil_append, List.append_eq]
    rw [ih rest (sIdx + 1) counter (fun x hx => h x (List.mem_cons_of_mem s2 hx))]
    have harith : sIdx + 1 + t.length = sIdx + (s2 :: t).length := by
      simp [List.length_cons]
      omega
    rw [harith]

lemma hash_payload_cancel {hashText : String → String}
    (hinj : Function.Injective hashText) {a i g1 g2 c : String}
    (h : hashText (a ++ "|" ++ i ++ "|" ++ g1 ++ "|" ++ c)
       = hashText (a ++ "|" ++ i ++ "|" ++ g2 ++ "|" ++ c)) : g1 = g2 := by
  have hp := hinj h
  have hd := congrArg String.data hp
  simp only [String.data_append, List.append_assoc] at hd
  have h1 := List.append_cancel_left hd
  have h2 := List.append_cancel_left h1
  have h3 := List.append_cancel_left h2
  have h4 := List.append_cancel_left h3
  have h5 := List.append_cancel_right h4
  cases g1
  cases g2
  exact congrArg String.mk h5

/-- C7: when a sentence has exactly two matches with distinct spellings and no
earlier sentence of the document has any match, extraction yields exactly the
two records of that sentence followed by the records of the later sentences;
the two records carry occurrence indices 1 and 2, the same window text,
different matched terms, and - the digest being collision-free - different
context ids. -/
theorem multi_match_two_rows (hashText : String → String)
    (hinj : Function.Injective hashText) (matcher : String → List TermMatch)
    (meta : DocMeta) (window : Nat) (before after : List String)
    (sentence : String) (m1 m2 : TermMatch)
    (hbefore : ∀ s ∈ before, matcher s = [])
    (hsent : matcher sentence = [m1, m2])
    (hdiff : m1.group0 ≠ m2.group0) :
    extract_ethnic_contexts hashText matcher meta (before ++ sentence :: after) window
      = mk_record hashText meta (before ++ sentence :: after) window
          before.length sentence 1 m1
        :: mk_record hashText meta (before ++ sentence :: after) window
            before.length sentence 2 m2
        :: extract_loop hashText matcher meta (before ++ sentence :: after) window
            after (before.length + 1) 2
    ∧ (mk_record hashText meta (before ++ sentence :: after) window
        before.length sentence 1 m1).occurrence_index = 1
    ∧ (mk_record hashText meta (before ++ sentence :: after) window
        before.length sentence 2 m2).occurrence_index = 2
    ∧ (mk_record hashText meta (before ++ sentence :: after) window
        before.length sentence 1 m1).context
      = (mk_record hashText meta (before ++ sentence :: after) window
          before.length sentence 2 m2).context
    ∧ (mk_record hashText meta (before ++ sentence :: after) window
        before.length sentence 1 m1).ethnonym
      ≠ (mk_record hashText meta (before ++ sentence :: after) window
          before.length sentence 2 m2).ethnonym
    ∧ (mk_record hashText meta (before ++ sentence :: after) window
        before.length sentence 1 m1).context_id
      ≠ (mk_record hashText meta (before ++ sentence :: after) window
          before.length sentence 2 m2).context_id := by
  refine ⟨?_, rfl, rfl, rfl, hdiff, ?_⟩
  · unfold extract_ethnic_contexts
    rw [extract_loop_skip hashText matcher meta (before ++ sentence :: after) window
      before (sentence :: after) 0 0 hbefore]
    simp only [Nat.zero_add, extract_loop, hsent, sentence_records,
      List.length_cons, List.length_nil]
    simp
  · intro h
    simp only [mk_record] at h
    exact hdiff (hash_payload_cancel hinj h)

/-- Witness for C7 at concrete input: a one-sentence document matched by both
"Kalmyk" and "Calmuck", with the identity digest. -/
theorem multi_match_two_rows_witness :
    extract_ethnic_contexts id demo_matcher demo_meta
        ["The Kalmyk, or Calmuck, people."] 3
      = mk_record id demo_meta ["The Kalmyk, or Calmuck, people."] 3 0
          "The Kalmyk, or Calmuck, people." 1 ⟨"Kalmyk"⟩
        :: mk_record id demo_meta ["The Kalmyk, or Calmuck, people."] 3 0
            "The Kalmyk, or Calmuck, people." 2 ⟨"Calmuck"⟩
        :: extract_loop id demo_matcher demo_meta
            ["The Kalmyk, or Calmuck, people."] 3 [] 1 2
    ∧ (mk_record id demo_meta ["The Kalmyk, or Calmuck, people."] 3 0
        "The Kalmyk, or Calmuck, people." 1 ⟨"Kalmyk"⟩).occurrence_index = 1
    ∧ (mk_record id demo_meta ["The Kalmyk, or Calmuck, people."] 3 0
        "The Kalmyk, or Calmuck, people." 2 ⟨"Calmuck"⟩).occurrence_index = 2
    ∧ (mk_record id demo_meta ["The Kalmyk, or Calmuck, people."] 3 0
        "The Kalmyk, or Calmuck, people." 1 ⟨"Kalmyk"⟩).context
      = (mk_record id demo_meta ["The Kalmyk, or Calmuck, people."] 3 0
          "The Kalmyk, or Calmuck, people." 2 ⟨"Calmuck"⟩).context
    ∧ (mk_record id demo_meta ["The Kalmyk, or Calmuck, people."] 3 0
        "The Kalmyk, or Calmuck, people." 1 ⟨"Kalmyk"⟩).ethnonym
      ≠ (mk_record id demo_meta ["The Kalmyk, or Calmuck, people."] 3 0
          "The Kalmyk, or Calmuck, people." 2 ⟨"Calmuck"⟩).ethnonym
    ∧ (mk_record id demo_meta ["The Kalmyk, or Calmuck, people."] 3 0
        "The Kalmyk, or Calmuck, people." 1 ⟨"Kalmyk"⟩).context_id
      ≠ (mk_record id demo_meta ["The Kalmyk, or Calmuck, people."] 3 0
          "The Kalmyk, or Calmuck, people." 2 ⟨"Calmuck"⟩).context_id :=
  multi_match_two_rows id Function.injective_id demo_matcher demo_meta 3 []
    [] "The Kalmyk, or Calmuck, people." ⟨"Kalmyk"⟩ ⟨"Calmuck"⟩
    (by simp) rfl (by decide)

end KalmykDH
